import Mathlib

/-!
Verification development for the humidifi orderbook core.

The definitions below are a shallow embedding, in Lean, of the TypeScript
sources of the repository:

* `src/worker/sequence-manager.ts` — the Sequence Manager (SM): buffering,
  snapshot reconciliation and the gap policy (`SequenceManager`).
* `src/worker/orderbook-processor.ts` — the Book Engine (BE):
  `OrderbookProcessor` with `applySnapshot`, `applyDelta`, `getSlice`.
* `src/lib/binary-protocol.ts` — the fixed-layout shared-memory slice
  encoding (`encodeOrderbookSlice`, `decodeOrderbookSlice`, `SABReader`).
* `src/store/orderbook.ts` — the reactive store (freeze semantics).
* `src/worker/binance-ws.ts` — the transport client reconnect ladder.
* the visibility-aware SharedWorker variant — port bookkeeping and
  hidden-port broadcast filtering.

JavaScript numbers are modelled by `ℚ` (all arithmetic appearing in the
verified paths is exact on the values involved); `parseFloat` results are
modelled by `Option ℚ`, with `none` standing for a NaN parse, which the
source skips.  Pure functions become Lean functions; methods that mutate
`this` become functions from state to state together with the list of
callback invocations they perform.
-/

namespace Humidifi

/-! ### Data model (src/types): depth updates and snapshots

A `(price, quantity)` string pair after `parseFloat` of both components:
`none` models a NaN result, otherwise `some` of the parsed number. -/

abbrev RawLevel := Option ℚ × Option ℚ

/-- `BinanceDepthUpdate`: first id `U`, final id `u`, bid levels `b`, ask
levels `a` (already passed through `parseFloat`, see `RawLevel`). -/
structure DepthUpdate where
  U : ℕ
  u : ℕ
  b : List RawLevel
  a : List RawLevel
deriving DecidableEq, Repr

/-- `BinanceDepthSnapshot`: REST snapshot with `lastUpdateId` and both sides. -/
structure DepthSnapshot where
  lastUpdateId : ℕ
  bids : List RawLevel
  asks : List RawLevel
deriving DecidableEq, Repr

/-! ### Sequence Manager (src/worker/sequence-manager.ts) -/

/-- `SequenceState` of the sequence manager. -/
inductive SequenceState where
  | buffering
  | syncing
  | synchronized
  | resyncing
deriving DecidableEq, Repr

/-- The mutable fields of `SequenceManager` that the synchronization logic
touches (`currentState`, `buffer`, `lastUpdateId`, `isFetching`,
`fetchRetryCount`). -/
structure SMState where
  currentState : SequenceState
  buffer : List DepthUpdate
  lastUpdateId : ℕ
  isFetching : Bool
  fetchRetryCount : ℕ
deriving DecidableEq, Repr

/-- Callback invocations performed by the sequence manager
(`SequenceManagerCallbacks`), plus the act of starting an async snapshot
fetch / scheduling a delayed refetch. -/
inductive SMEvent where
  | stateChange (s : SequenceState)
  | synchronized (snap : DepthSnapshot) (validUpdates : List DepthUpdate)
  | update (upd : DepthUpdate)
  | sequenceGap
  | fetchStart
  | scheduleRefetch (delayMs : ℕ)
deriving DecidableEq, Repr

/-- Constructor state: `buffering`, empty buffer, `lastUpdateId = 0`. -/
def SMState.init : SMState :=
  { currentState := .buffering, buffer := [], lastUpdateId := 0,
    isFetching := false, fetchRetryCount := 0 }

/-- `GAP_TOLERANCE = 1000` (sequence-manager.ts). -/
def GAP_TOLERANCE : ℕ := 1000

/-- `MAX_SNAPSHOT_RETRIES = 3` (sequence-manager.ts). -/
def MAX_SNAPSHOT_RETRIES : ℕ := 3

/-- `SequenceManager.setState`: updates `currentState` and fires
`onStateChange` only when the state actually changes. -/
def setState (st : SMState) (s : SequenceState) : SMState × List SMEvent :=
  if st.currentState ≠ s then
    ({ st with currentState := s }, [.stateChange s])
  else
    (st, [])

/-- `SequenceManager.validateSequence`. -/
def validateSequence (st : SMState) (upd : DepthUpdate) : Bool :=
  if st.lastUpdateId = 0 then
    true
  else
    let expectedU := st.lastUpdateId + 1
    if upd.U ≤ expectedU then
      true
    else
      let gap := upd.U - expectedU
      decide (gap ≤ GAP_TOLERANCE)

/-- The synchronous prefix of `SequenceManager.fetchSnapshot`: guard on
`isFetching`, set `isFetching`, zero the retry counter, go to `syncing` and
start the async fetch (`fetchStart`). -/
def fetchSnapshotStart (st : SMState) : SMState × List SMEvent :=
  if st.isFetching then
    (st, [])
  else
    let st := { st with isFetching := true, fetchRetryCount := 0 }
    let (st, evs) := setState st .syncing
    (st, evs ++ [.fetchStart])

/-- The `buffering` branch of `SequenceManager.handleMessage`: push the
update and start the snapshot fetch if none is in flight. -/
def handleBuffering (st : SMState) (upd : DepthUpdate) : SMState × List SMEvent :=
  let st := { st with buffer := st.buffer ++ [upd] }
  if st.isFetching then
    (st, [])
  else
    fetchSnapshotStart st

/-- `SequenceManager.reset`: clear buffer, `lastUpdateId = 0`, state back to
`buffering` (assigned directly, so no `onStateChange` fires). -/
def resetSM (_st : SMState) : SMState :=
  { currentState := .buffering, buffer := [], lastUpdateId := 0,
    isFetching := false, fetchRetryCount := 0 }

/-- `SequenceManager.handleMessage`.  In the `synchronized` case a rejected
update emits `onSequenceGap`, resets, and is re-handled; the reset state is
`buffering`, so the recursive call is exactly the buffering branch. -/
def handleMessage (st : SMState) (upd : DepthUpdate) : SMState × List SMEvent :=
  match st.currentState with
  | .buffering => handleBuffering st upd
  | .syncing => ({ st with buffer := st.buffer ++ [upd] }, [])
  | .synchronized =>
      if validateSequence st upd then
        ({ st with lastUpdateId := upd.u }, [.update upd])
      else
        let st2 := resetSM st
        let (st3, evs) := handleBuffering st2 upd
        (st3, .sequenceGap :: evs)
  | .resyncing => ({ st with buffer := st.buffer ++ [upd] }, [])

/-- Steps 5–6 of `SequenceManager.processSnapshot` (the common fall-through
after the too-old check): drop buffered updates with
`u ≤ snapshot.lastUpdateId`, record `lastUpdateId`, clear the buffer, go to
`synchronized`, and deliver `onSynchronized(snapshot, validUpdates)`. -/
def processSnapshotAccept (st : SMState) (snap : DepthSnapshot) : SMState × List SMEvent :=
  let validUpdates := st.buffer.filter (fun upd => decide (snap.lastUpdateId < upd.u))
  let st := { st with lastUpdateId := snap.lastUpdateId, buffer := [], isFetching := false }
  let (st, evs) := setState st .synchronized
  (st, evs ++ [.synchronized snap validUpdates])

/-- `SequenceManager.processSnapshot`: if the snapshot is older than the
first buffered update, refetch after 500 ms — but only while
`fetchRetryCount < MAX_SNAPSHOT_RETRIES`; otherwise fall through and accept
the (possibly stale) snapshot. -/
def processSnapshot (st : SMState) (snap : DepthSnapshot) : SMState × List SMEvent :=
  match st.buffer.head? with
  | some firstBuffered =>
      if snap.lastUpdateId < firstBuffered.U then
        if st.fetchRetryCount < MAX_SNAPSHOT_RETRIES then
          ({ st with fetchRetryCount := st.fetchRetryCount + 1 }, [.scheduleRefetch 500])
        else
          processSnapshotAccept st snap
      else
        processSnapshotAccept st snap
  | none => processSnapshotAccept st snap

/-! ### Book Engine (src/worker/orderbook-processor.ts) -/

/-- One side of the book: the contents of a JS `Map<number, number>` from
price to size, in insertion order, keys pairwise distinct. -/
abbrev BookSide := List (ℚ × ℚ)

/-- `Map.set p q`: overwrite in place when the key exists, append otherwise
(JS `Map` keeps insertion order). -/
def mapSet (m : BookSide) (p q : ℚ) : BookSide :=
  if m.any (fun e => decide (e.1 = p)) then
    m.map (fun e => if e.1 = p then (p, q) else e)
  else
    m ++ [(p, q)]

/-- `Map.delete p`. -/
def mapDelete (m : BookSide) (p : ℚ) : BookSide :=
  m.filter (fun e => decide (e.1 ≠ p))

/-- The state of `OrderbookProcessor`: both sides, `lastId`, `depth`. -/
structure BEState where
  bids : BookSide
  asks : BookSide
  lastId : ℕ
  depth : ℕ
deriving DecidableEq, Repr

/-- Fields at construction: empty maps, `lastId = 0`, `depth = 15`. -/
def BEState.init : BEState := { bids := [], asks := [], lastId := 0, depth := 15 }

/-- `OrderbookProcessor.setDepth`. -/
def setDepth (st : BEState) (d : ℕ) : BEState := { st with depth := d }

/-- Snapshot-side insertion loop of `applySnapshot`: skip NaN pairs, insert
only quantities `> 0`. -/
def insertSnapshotLevels (m : BookSide) (levels : List RawLevel) : BookSide :=
  levels.foldl
    (fun m pq =>
      match pq with
      | (some p, some q) => if 0 < q then mapSet m p q else m
      | _ => m)
    m

/-- Delta-side loop of `applyDelta`: skip NaN pairs, quantity `0` deletes the
level, anything else upserts. -/
def applyDeltaLevels (m : BookSide) (levels : List RawLevel) : BookSide :=
  levels.foldl
    (fun m pq =>
      match pq with
      | (some p, some q) => if q = 0 then mapDelete m p else mapSet m p q
      | _ => m)
    m

/-- `OrderbookProcessor.applySnapshot`: clear both sides, insert the positive
finite levels, set `lastId`. -/
def applySnapshot (st : BEState) (snap : DepthSnapshot) : BEState :=
  { st with
    bids := insertSnapshotLevels [] snap.bids
    asks := insertSnapshotLevels [] snap.asks
    lastId := snap.lastUpdateId }

/-- `OrderbookProcessor.applyDelta`. -/
def applyDelta (st : BEState) (upd : DepthUpdate) : BEState :=
  { st with
    bids := applyDeltaLevels st.bids upd.b
    asks := applyDeltaLevels st.asks upd.a
    lastId := upd.u }

/-- A `PriceLevel` of an emitted slice. -/
structure PriceLevel where
  price : ℚ
  size : ℚ
  cumulative : ℚ
  depthPercent : ℚ
deriving DecidableEq, Repr

/-- An `OrderbookSlice`. -/
structure OrderbookSlice where
  bids : List PriceLevel
  asks : List PriceLevel
  spread : ℚ
  spreadPercent : ℚ
  midpoint : ℚ
  timestamp : ℚ
  lastUpdateId : ℚ
deriving DecidableEq, Repr

/-- `Math.round` (half away from zero rounds up, i.e. `⌊x + 1/2⌋`). -/
def jsRound (q : ℚ) : ℚ := ((⌊q + 1 / 2⌋ : ℤ) : ℚ)

/-- Bid sort order of `getSlice`: descending price (`(a, b) => b.price - a.price`). -/
def bidOrd (x y : ℚ × ℚ) : Prop := y.1 ≤ x.1

/-- Ask sort order of `getSlice`: ascending price (`(a, b) => a.price - b.price`). -/
def askOrd (x y : ℚ × ℚ) : Prop := x.1 ≤ y.1

instance : DecidableRel bidOrd := fun x y => inferInstanceAs (Decidable (y.1 ≤ x.1))
instance : DecidableRel askOrd := fun x y => inferInstanceAs (Decidable (x.1 ≤ y.1))
instance : IsTotal (ℚ × ℚ) bidOrd := ⟨fun x y => le_total y.1 x.1⟩
instance : IsTotal (ℚ × ℚ) askOrd := ⟨fun x y => le_total x.1 y.1⟩
instance : IsTrans (ℚ × ℚ) bidOrd := ⟨fun _ _ _ h h2 => le_trans h2 h⟩
instance : IsTrans (ℚ × ℚ) askOrd := ⟨fun _ _ _ h h2 => le_trans h h2⟩

/-- Running-sum part of `OrderbookProcessor.calculateCumulative`, with the
accumulator made explicit. -/
def calcCumAux (c : ℚ) : List (ℚ × ℚ) → List PriceLevel
  | [] => []
  | (p, s) :: rest =>
      { price := p, size := s, cumulative := c + s, depthPercent := 0 } :: calcCumAux (c + s) rest

/-- `OrderbookProcessor.calculateCumulative`. -/
def calculateCumulative (levels : List (ℚ × ℚ)) : List PriceLevel :=
  calcCumAux 0 levels

/-- The depth-percent pass of `getSlice`:
`round(cumulative / maxCumulative * 10000) / 100` on each level. -/
def applyDepthPercent (maxCumulative : ℚ) (levels : List PriceLevel) : List PriceLevel :=
  levels.map (fun l =>
    { l with depthPercent := jsRound (l.cumulative / maxCumulative * 10000) / 100 })

/-- `levels[levels.length - 1]?.cumulative ?? 0`. -/
def lastCumulative (levels : List PriceLevel) : ℚ :=
  (levels.getLast?).elim 0 (·.cumulative)

/-- `OrderbookProcessor.getSlice`; `now` stands for `Date.now()`. -/
def getSlice (st : BEState) (now : ℚ) : OrderbookSlice :=
  let sortedBids := (List.insertionSort bidOrd st.bids).take st.depth
  let sortedAsks := (List.insertionSort askOrd st.asks).take st.depth
  let bidLevels0 := calculateCumulative sortedBids
  let askLevels0 := calculateCumulative sortedAsks
  let maxCumulative := max (lastCumulative bidLevels0) (lastCumulative askLevels0)
  let bidLevels := if 0 < maxCumulative then applyDepthPercent maxCumulative bidLevels0 else bidLevels0
  let askLevels := if 0 < maxCumulative then applyDepthPercent maxCumulative askLevels0 else askLevels0
  let bestBid := (bidLevels.head?).elim 0 (·.price)
  let bestAsk := (askLevels.head?).elim 0 (·.price)
  let spread := bestAsk - bestBid
  let midpoint := (bestBid + bestAsk) / 2
  let spreadPercent := if 0 < midpoint then spread / midpoint else 0
  { bids := bidLevels
    asks := askLevels
    spread := spread
    spreadPercent := spreadPercent
    midpoint := midpoint
    timestamp := now
    lastUpdateId := (st.lastId : ℚ) }

/-- `handleSynchronized` of the worker hosts: apply the snapshot to the Book
Engine, then replay the valid buffered updates in order. -/
def handleSynchronized (be : BEState) (snap : DepthSnapshot)
    (bufferedUpdates : List DepthUpdate) : BEState :=
  bufferedUpdates.foldl applyDelta (applySnapshot be snap)

/-! ### Concrete data of spec §8 scenario 1 (claim C2)

The scenario fixes only the sequence ids; levels are representative
(single integer-valued bid per delta, as in the repository's test fixtures). -/

/-- Scenario delta D1 `(U=100, u=102)`. -/
def scenD1 : DepthUpdate := ⟨100, 102, [(some 97500, some 2)], []⟩

/-- Scenario delta D2 `(U=103, u=105)`. -/
def scenD2 : DepthUpdate := ⟨103, 105, [(some 97499, some 1)], []⟩

/-- Scenario delta D3 `(U=106, u=108)`. -/
def scenD3 : DepthUpdate := ⟨106, 108, [(some 97498, some 2)], []⟩

/-- Scenario snapshot with `lastUpdateId = 104`. -/
def scenSnap104 : DepthSnapshot := ⟨104, [(some 97500, some 2)], [(some 97501, some 1)]⟩

/-- Sequence-manager state after the three scenario deltas streamed in from
the initial state (D1 buffered and triggering the fetch, D2 and D3 buffered
while syncing). -/
def scenState : SMState :=
  (handleMessage (handleMessage (handleMessage SMState.init scenD1).1 scenD2).1 scenD3).1

theorem scenState_eq :
    scenState =
      { currentState := .syncing, buffer := [scenD1, scenD2, scenD3],
        lastUpdateId := 0, isFetching := true, fetchRetryCount := 0 } := by
  decide

/-! ### Claim theorems about the Sequence Manager -/

/-- C1: in the `synchronized` state with `lastUpdateId = L > 0`, an incoming
delta is accepted iff `U ≤ L + 1 + GAP_TOLERANCE`; on accept `lastUpdateId`
becomes `u` and the delta is forwarded (`onUpdate`); on reject
`onSequenceGap` fires, the manager resets (buffer cleared, `lastUpdateId = 0`,
state `buffering`) and the same delta is reprocessed through the buffering
branch. -/
theorem sm_synchronized_gap_policy (st : SMState) (upd : DepthUpdate)
    (hsync : st.currentState = .synchronized) (hpos : 0 < st.lastUpdateId) :
    (validateSequence st upd = true ↔ upd.U ≤ st.lastUpdateId + 1 + GAP_TOLERANCE)
    ∧ (upd.U ≤ st.lastUpdateId + 1 + GAP_TOLERANCE →
        handleMessage st upd = ({ st with lastUpdateId := upd.u }, [.update upd]))
    ∧ (st.lastUpdateId + 1 + GAP_TOLERANCE < upd.U →
        resetSM st = { currentState := .buffering, buffer := [], lastUpdateId := 0,
                       isFetching := false, fetchRetryCount := 0 }
        ∧ handleMessage st upd =
            ((handleBuffering (resetSM st) upd).1,
              .sequenceGap :: (handleBuffering (resetSM st) upd).2)
        ∧ handleMessage st upd =
            ({ currentState := .syncing, buffer := [upd], lastUpdateId := 0,
               isFetching := true, fetchRetryCount := 0 },
             [.sequenceGap, .stateChange .syncing, .fetchStart])) := by
  have hL : st.lastUpdateId ≠ 0 := Nat.pos_iff_ne_zero.mp hpos
  have hiff : validateSequence st upd = true ↔ upd.U ≤ st.lastUpdateId + 1 + GAP_TOLERANCE := by
    rw [validateSequence, if_neg hL]
    show (if upd.U ≤ st.lastUpdateId + 1 then true
          else decide (upd.U - (st.lastUpdateId + 1) ≤ GAP_TOLERANCE)) = true ↔ _
    split_ifs with h
    · exact iff_of_true rfl (by show upd.U ≤ st.lastUpdateId + 1 + 1000; omega)
    · rw [decide_eq_true_eq]
      show upd.U - (st.lastUpdateId + 1) ≤ 1000 ↔ upd.U ≤ st.lastUpdateId + 1 + 1000
      omega
  refine ⟨hiff, ?_, ?_⟩
  · intro h
    have hv : validateSequence st upd = true := hiff.mpr h
    simp [handleMessage, hsync, hv]
  · intro h
    have hv : validateSequence st upd = false := by
      rcases Bool.eq_false_or_eq_true (validateSequence st upd) with ht | hf
      · exact absurd (hiff.mp ht) (by omega)
      · exact hf
    refine ⟨rfl, ?_, ?_⟩
    · simp [handleMessage, hsync, hv]
    · simp [handleMessage, hsync, hv, handleBuffering, resetSM, fetchSnapshotStart, setState]

/-- Witness for `sm_synchronized_gap_policy` at the spec's small-gap scenario
(`lastUpdateId = 1003`, inbound `(U=1504, u=1506)`, gap 500 ≤ 1000). -/
theorem sm_synchronized_gap_policy_witness :
    handleMessage ⟨.synchronized, [], 1003, false, 0⟩ ⟨1504, 1506, [], []⟩
      = ({ currentState := .synchronized, buffer := [], lastUpdateId := 1506,
           isFetching := false, fetchRetryCount := 0 },
         [.update ⟨1504, 1506, [], []⟩]) :=
  (sm_synchronized_gap_policy ⟨.synchronized, [], 1003, false, 0⟩ ⟨1504, 1506, [], []⟩
    rfl (by decide)).2.1 (by decide)

/-- C2 counterexample: in spec §8 scenario 1 the code does NOT discard D2.
`processSnapshot` keeps every buffered delta with
`final_update_id > snapshot.lastUpdateId`, and D2 has `u = 105 > 104`; the
`onSynchronized` delivery carries `[D2, D3]`, not `[D3]`. -/
theorem scenario1_keeps_D2 :
    (processSnapshot scenState scenSnap104).2 =
      [SMEvent.stateChange .synchronized, SMEvent.synchronized scenSnap104 [scenD2, scenD3]]
    ∧ SMEvent.synchronized scenSnap104 [scenD3] ∉ (processSnapshot scenState scenSnap104).2 := by
  decide

/-- C2 (amended): in spec §8 scenario 1 the Sequence Manager discards only D1
(`u = 102 ≤ 104`), replays D2 and D3 through the Book Engine, and the Book
Engine's `lastUpdateId` afterwards is 108. -/
theorem scenario1_reconciliation :
    (processSnapshot scenState scenSnap104).2 =
      [SMEvent.stateChange .synchronized, SMEvent.synchronized scenSnap104 [scenD2, scenD3]]
    ∧ (processSnapshot scenState scenSnap104).1.lastUpdateId = 104
    ∧ (handleSynchronized BEState.init scenSnap104 [scenD2, scenD3]).lastId = 108 := by
  decide

/-- C10: when `processSnapshot` sees a snapshot older than the first buffered
delta but the retry counter has already reached `MAX_SNAPSHOT_RETRIES`, it
does not refetch: it falls through, records the stale snapshot's
`lastUpdateId`, clears the buffer, transitions to `synchronized`, and
delivers the stale snapshot (with the surviving buffered deltas) via
`onSynchronized`. -/
theorem processSnapshot_stale_after_retry_cap (st : SMState) (snap : DepthSnapshot)
    (first : DepthUpdate) (hbuf : st.buffer.head? = some first)
    (hstale : snap.lastUpdateId < first.U)
    (hretry : MAX_SNAPSHOT_RETRIES ≤ st.fetchRetryCount) :
    processSnapshot st snap = processSnapshotAccept st snap
    ∧ (processSnapshot st snap).1.lastUpdateId = snap.lastUpdateId
    ∧ (processSnapshot st snap).1.buffer = []
    ∧ (processSnapshot st snap).1.currentState = .synchronized
    ∧ (processSnapshot st snap).1.fetchRetryCount = st.fetchRetryCount
    ∧ SMEvent.synchronized snap
        (st.buffer.filter fun upd => decide (snap.lastUpdateId < upd.u))
        ∈ (processSnapshot st snap).2
    ∧ ∀ d, SMEvent.scheduleRefetch d ∉ (processSnapshot st snap).2 := by
  have hlt : ¬ st.fetchRetryCount < MAX_SNAPSHOT_RETRIES := by omega
  have hmain : processSnapshot st snap = processSnapshotAccept st snap := by
    rw [processSnapshot, hbuf]
    simp [hstale, hlt]
  refine ⟨hmain, ?_⟩
  rw [hmain]
  by_cases hne : st.currentState = SequenceState.synchronized
  · simp [processSnapshotAccept, setState, hne]
  · simp [processSnapshotAccept, setState, hne]

/-- Witness for `processSnapshot_stale_after_retry_cap`: buffer head
`(U=200, u=205)`, stale snapshot `lastUpdateId = 104`, retry counter 3. -/
theorem processSnapshot_stale_after_retry_cap_witness :
    (processSnapshot ⟨.syncing, [⟨200, 205, [], []⟩], 0, true, 3⟩ ⟨104, [], []⟩).1.currentState
      = .synchronized
    ∧ (processSnapshot ⟨.syncing, [⟨200, 205, [], []⟩], 0, true, 3⟩ ⟨104, [], []⟩).1.lastUpdateId
      = 104 :=
  ⟨(processSnapshot_stale_after_retry_cap ⟨.syncing, [⟨200, 205, [], []⟩], 0, true, 3⟩
      ⟨104, [], []⟩ ⟨200, 205, [], []⟩ rfl (by decide) (by decide)).2.2.2.1,
   (processSnapshot_stale_after_retry_cap ⟨.syncing, [⟨200, 205, [], []⟩], 0, true, 3⟩
      ⟨104, [], []⟩ ⟨200, 205, [], []⟩ rfl (by decide) (by decide)).2.1⟩

/-! ### Reactive store (src/store/orderbook.ts) -/

/-- The slice-related fields of the Zustand store
(`liveOrderbook`, `frozenOrderbook`, `isFrozen`). -/
structure StoreState where
  liveOrderbook : Option OrderbookSlice
  frozenOrderbook : Option OrderbookSlice
  isFrozen : Bool
deriving DecidableEq, Repr

/-- Store construction: both slices `null`, not frozen. -/
def StoreState.init : StoreState :=
  { liveOrderbook := none, frozenOrderbook := none, isFrozen := false }

/-- `updateLiveOrderbook` action: `set({ liveOrderbook: slice })`. -/
def updateLiveOrderbook (slice : OrderbookSlice) (st : StoreState) : StoreState :=
  { st with liveOrderbook := some slice }

/-- `freeze` action: capture the current live slice and set the flag. -/
def freezeStore (st : StoreState) : StoreState :=
  { st with isFrozen := true, frozenOrderbook := st.liveOrderbook }

/-- `unfreeze` action: clear the flag and the frozen reference. -/
def unfreezeStore (st : StoreState) : StoreState :=
  { st with isFrozen := false, frozenOrderbook := none }

/-- What external readers display: the frozen slice while the flag is set,
the live slice otherwise (`getDisplayed` selector contract). -/
def displayedSlice (st : StoreState) : Option OrderbookSlice :=
  if st.isFrozen then st.frozenOrderbook else st.liveOrderbook

/-- Any run of live updates, applied in order. -/
def applyLiveUpdates (st : StoreState) (slices : List OrderbookSlice) : StoreState :=
  slices.foldl (fun s sl => updateLiveOrderbook sl s) st

theorem applyLiveUpdates_frozen_fields (st : StoreState) (slices : List OrderbookSlice) :
    (applyLiveUpdates st slices).frozenOrderbook = st.frozenOrderbook
    ∧ (applyLiveUpdates st slices).isFrozen = st.isFrozen := by
  induction slices generalizing st with
  | nil => exact ⟨rfl, rfl⟩
  | cons sl rest ih =>
      rcases ih (updateLiveOrderbook sl st) with ⟨h1, h2⟩
      exact ⟨h1, h2⟩

/-- C7: `freeze()` copies the live slice into the frozen slot and sets the
flag; while the flag is set, any run of `update_live` calls changes only the
live slice (frozen slice and flag untouched), and the displayed slice stays
equal to the captured frozen one; `unfreeze()` clears the frozen reference
and the flag, after which the displayed slice equals the live slice again. -/
theorem store_freeze_semantics (st : StoreState) (sl : OrderbookSlice)
    (slices : List OrderbookSlice) :
    ((freezeStore st).frozenOrderbook = st.liveOrderbook ∧ (freezeStore st).isFrozen = true)
    ∧ ((updateLiveOrderbook sl st).frozenOrderbook = st.frozenOrderbook
        ∧ (updateLiveOrderbook sl st).isFrozen = st.isFrozen
        ∧ (updateLiveOrderbook sl st).liveOrderbook = some sl)
    ∧ (st.isFrozen = true →
        displayedSlice (applyLiveUpdates st slices) = st.frozenOrderbook)
    ∧ displayedSlice (applyLiveUpdates (freezeStore st) slices) = st.liveOrderbook
    ∧ ((unfreezeStore st).isFrozen = false ∧ (unfreezeStore st).frozenOrderbook = none
        ∧ displayedSlice (unfreezeStore st) = (unfreezeStore st).liveOrderbook) := by
  rcases applyLiveUpdates_frozen_fields st slices with ⟨hf, hz⟩
  rcases applyLiveUpdates_frozen_fields (freezeStore st) slices with ⟨hf2, hz2⟩
  refine ⟨⟨rfl, rfl⟩, ⟨rfl, rfl, rfl⟩, ?_, ?_, rfl, rfl, ?_⟩
  · intro hfr
    rw [displayedSlice, hf, hz, hfr, if_pos rfl]
  · rw [displayedSlice, hf2, hz2]
    rfl
  · simp [displayedSlice, unfreezeStore]

/-- Witness for `store_freeze_semantics` (its only propositional hypothesis is
the `isFrozen = true` guard of the third conjunct): a frozen store keeps
displaying the captured slice across a live update. -/
theorem store_freeze_semantics_witness :
    displayedSlice
      (applyLiveUpdates
        { liveOrderbook := none, frozenOrderbook := none, isFrozen := true }
        [{ bids := [], asks := [], spread := 0, spreadPercent := 0, midpoint := 0,
           timestamp := 0, lastUpdateId := 0 }]) = none :=
  (store_freeze_semantics
    { liveOrderbook := none, frozenOrderbook := none, isFrozen := true }
    { bids := [], asks := [], spread := 0, spreadPercent := 0, midpoint := 0,
      timestamp := 0, lastUpdateId := 0 }
    [{ bids := [], asks := [], spread := 0, spreadPercent := 0, midpoint := 0,
       timestamp := 0, lastUpdateId := 0 }]).2.2.1 rfl

/-! ### Transport client (src/worker/binance-ws.ts) -/

/-- Connection status values used by the workers
(`ConnectionStatus` in src/types). -/
inductive ConnStatus where
  | disconnected
  | connecting
  | syncing
  | connected
  | reconnecting
  | error
deriving DecidableEq, Repr

/-- `MAX_RETRIES = 5` (binance-ws.ts). -/
def MAX_RETRIES : ℕ := 5

/-- `BASE_DELAY_MS = 1000` (binance-ws.ts). -/
def BASE_DELAY_MS : ℚ := 1000

/-- The reconnect-relevant fields of `BinanceWebSocket`. -/
structure WSState where
  retryCount : ℕ
  shouldReconnect : Bool
deriving DecidableEq, Repr

/-- `BinanceWebSocket.handleReconnect`, with `Math.random()` passed in as
`rand`.  Returns the new state and, when a reconnect is scheduled, the
attempt number handed to `onReconnecting` together with the scheduled delay
`min(BASE_DELAY_MS * 2^(attempt-1) + rand * 1000, 30000)`. -/
def handleReconnect (st : WSState) (rand : ℚ) : WSState × Option (ℕ × ℚ) :=
  if st.shouldReconnect = false ∨ MAX_RETRIES ≤ st.retryCount then
    (st, none)
  else
    let n := st.retryCount + 1
    ({ st with retryCount := n },
     some (n, min (BASE_DELAY_MS * 2 ^ (n - 1) + rand * 1000) 30000))

/-- Events delivered to the socket callbacks wired up in the worker hosts. -/
inductive WSEvent where
  | openEvt
  | closeEvt
  | errorEvt
deriving DecidableEq, Repr

/-- The worker-side wiring of the socket callbacks (shared-worker `connect`):
`onerror` broadcasts an `error` status; `onclose` runs `handleReconnect`,
which broadcasts `reconnecting` exactly when a retry is scheduled; `onopen`
zeroes the retry counter. -/
def workerWSStep (st : WSState) (ev : WSEvent) (rand : ℚ) :
    WSState × Option (ℕ × ℚ) × List ConnStatus :=
  match ev with
  | .openEvt => ({ st with retryCount := 0 }, none, [])
  | .errorEvt => (st, none, [.error])
  | .closeEvt =>
      match handleReconnect st rand with
      | (st2, some sched) => (st2, some sched, [.reconnecting])
      | (st2, none) => (st2, none, [])

/-- C8: after an unexpected close, reconnect attempt `n` (1 ≤ n ≤ 5) is
scheduled after `min(1000 * 2^(n-1) + jitter, 30000)` ms with jitter
`rand * 1000 ∈ [0, 1000)`; once five attempts have been made, a further
close schedules nothing, while the error event of the failed attempt has
already surfaced the terminal `error` status. -/
theorem ws_reconnect_policy (st : WSState) (rand : ℚ) (n : ℕ)
    (hrand0 : 0 ≤ rand) (hrand1 : rand < 1)
    (hsr : st.shouldReconnect = true) (hn : st.retryCount = n - 1)
    (h1 : 1 ≤ n) (h5 : n ≤ 5) :
    (handleReconnect st rand =
      ({ st with retryCount := n },
       some (n, min (1000 * 2 ^ (n - 1) + rand * 1000) 30000))
      ∧ 0 ≤ rand * 1000 ∧ rand * 1000 < 1000
      ∧ workerWSStep st .closeEvt rand =
          ({ st with retryCount := n },
           some (n, min (1000 * 2 ^ (n - 1) + rand * 1000) 30000), [.reconnecting]))
    ∧ (∀ st5 : WSState, st5.retryCount = 5 →
        workerWSStep st5 .closeEvt rand = (st5, none, [])
        ∧ workerWSStep st5 .errorEvt rand = (st5, none, [ConnStatus.error])) := by
  have hcount : st.retryCount = n - 1 := hn
  have hnotstop : ¬ (st.shouldReconnect = false ∨ MAX_RETRIES ≤ st.retryCount) := by
    rw [hsr, hcount]
    simp [MAX_RETRIES]
    omega
  have hmain : handleReconnect st rand =
      ({ st with retryCount := n },
       some (n, min (1000 * 2 ^ (n - 1) + rand * 1000) 30000)) := by
    rw [handleReconnect, if_neg hnotstop, hcount]
    have harg : n - 1 + 1 = n := by omega
    rw [harg]
    rfl
  refine ⟨⟨hmain, ?_, ?_, ?_⟩, ?_⟩
  · positivity
  · calc rand * 1000 < 1 * 1000 := by
          exact mul_lt_mul_of_pos_right hrand1 (by norm_num)
      _ = 1000 := by norm_num
  · rw [workerWSStep, hmain]
  · intro st5 h5c
    have hstop : st5.shouldReconnect = false ∨ MAX_RETRIES ≤ st5.retryCount := by
      right
      rw [h5c]
      decide
    constructor
    · rw [workerWSStep, handleReconnect, if_pos hstop]
    · rfl

/-- Witness for `ws_reconnect_policy`: third attempt (`retryCount = 2`),
`rand = 1/2`, so the scheduled delay is `min(4000 + 500, 30000) = 4500`. -/
theorem ws_reconnect_policy_witness :
    handleReconnect ⟨2, true⟩ (1 / 2) =
      (⟨3, true⟩, some (3, min (1000 * 2 ^ 2 + (1 / 2 : ℚ) * 1000) 30000)) :=
  ((ws_reconnect_policy ⟨2, true⟩ (1 / 2) 3 (by norm_num) (by norm_num) rfl rfl
    (by norm_num) (by norm_num)).1).1

/-! ### Shared-host fabric (visibility-aware SharedWorker variant) -/

/-- A consumer port (opaque identity). -/
abbrev Port := ℕ

/-- Per-port metadata `{ lastSeen, hidden, hiddenSince }`. -/
structure PortInfo where
  lastSeen : ℕ
  hidden : Bool
  hiddenSince : Option ℕ
deriving DecidableEq, Repr

/-- Worker → main messages relevant to the fabric. -/
inductive WorkerMsg where
  | orderbookUpdate (data : OrderbookSlice) (workerTimestamp : ℚ)
  | statusChange (status : ConnStatus)
  | metrics (tabCount : ℕ)
deriving DecidableEq, Repr

/-- Tag test `message.type === ORDERBOOK_UPDATE`. -/
def WorkerMsg.isOrderbookUpdate : WorkerMsg → Bool
  | .orderbookUpdate _ _ => true
  | _ => false

/-- The SharedWorker globals the fabric logic reads: the port map and the
(optional) sequence manager and orderbook processor of the running session. -/
structure SharedWorkerState where
  portMap : List (Port × PortInfo)
  smState : Option SMState
  beState : Option BEState
deriving DecidableEq, Repr

/-- `broadcastToAll`: post the message to every port of the map, skipping
ports currently flagged hidden when the message is an `ORDERBOOK_UPDATE`.
Returns the `(port, message)` sends performed. -/
def broadcastToAll (portMap : List (Port × PortInfo)) (msg : WorkerMsg) :
    List (Port × WorkerMsg) :=
  (portMap.filter (fun e => !(msg.isOrderbookUpdate && e.2.hidden))).map
    (fun e => (e.1, msg))

/-- `mapSequenceState`: `{buffering, syncing, resyncing} → syncing`,
`synchronized → connected`. -/
def mapSequenceState : SequenceState → ConnStatus
  | .buffering => .syncing
  | .syncing => .syncing
  | .resyncing => .syncing
  | .synchronized => .connected

/-- `sendCurrentState(port)`: post the current status, and — when the session
is synchronized — a fresh slice, to one port.  `now` stands for `Date.now()`
inside `getSlice` and `ts` for `performance.now()`. -/
def sendCurrentState (ws : SharedWorkerState) (port : Port) (now ts : ℚ) :
    List (Port × WorkerMsg) :=
  (match ws.smState with
   | some sm => [(port, .statusChange (mapSequenceState sm.currentState))]
   | none => []) ++
  (match ws.beState, ws.smState with
   | some be, some sm =>
       if sm.currentState = SequenceState.synchronized then
         [(port, .orderbookUpdate (getSlice be now) ts)]
       else []
   | _, _ => [])

/-- The `VISIBILITY` branch of the port message handler: update the port's
metadata and, on resume (`hidden = false`), send the current state to that
port immediately. -/
def handleVisibility (ws : SharedWorkerState) (port : Port) (hidden : Bool)
    (wallClock : ℕ) (now ts : ℚ) : SharedWorkerState × List (Port × WorkerMsg) :=
  let portMap := ws.portMap.map (fun e =>
    if e.1 = port then
      (e.1, { lastSeen := wallClock, hidden := hidden,
              hiddenSince := if hidden then some wallClock else none })
    else e)
  let ws2 := { ws with portMap := portMap }
  if hidden then (ws2, []) else (ws2, sendCurrentState ws2 port now ts)

/-- C9: a published slice is sent to exactly the attached ports not flagged
hidden; a port all of whose entries are hidden receives nothing from the
broadcast; and on a resume (`visibility hidden=false`) of a synchronized
session the resumed port immediately receives one fresh slice. -/
theorem shared_host_hidden_broadcast (portMap : List (Port × PortInfo))
    (slice : OrderbookSlice) (ts : ℚ) (msg : WorkerMsg)
    (hmsg : msg = .orderbookUpdate slice ts) :
    (broadcastToAll portMap msg =
      (portMap.filter (fun e => !e.2.hidden)).map (fun e => (e.1, msg)))
    ∧ (∀ p : Port, (∀ info : PortInfo, (p, info) ∈ portMap → info.hidden = true) →
        ∀ send ∈ broadcastToAll portMap msg, send.1 ≠ p)
    ∧ (∀ (ws : SharedWorkerState) (port : Port) (wallClock : ℕ) (now : ℚ)
        (sm : SMState) (be : BEState),
        ws.smState = some sm → sm.currentState = SequenceState.synchronized →
        ws.beState = some be →
        (port, WorkerMsg.orderbookUpdate (getSlice be now) ts) ∈
          (handleVisibility ws port false wallClock now ts).2) := by
  have hupd : msg.isOrderbookUpdate = true := by rw [hmsg]; rfl
  have hfilter : broadcastToAll portMap msg =
      (portMap.filter (fun e => !e.2.hidden)).map (fun e => (e.1, msg)) := by
    rw [broadcastToAll]
    congr 1
    apply List.filter_congr
    intro e _
    rw [hupd]
    rfl
  refine ⟨hfilter, ?_, ?_⟩
  · intro p hall send hsend
    rw [hfilter] at hsend
    rcases List.mem_map.mp hsend with ⟨e, he, hsendeq⟩
    rcases List.mem_filter.mp he with ⟨hmem, hkeep⟩
    intro hp
    have : (p, e.2) ∈ portMap := by
      have : e = (send.1, e.2) := by
        rw [← hsendeq]
      rw [hp] at this
      rw [← this]
      exact hmem
    have hhid := hall e.2 this
    rw [hhid] at hkeep
    simp at hkeep
  · intro ws port wallClock now sm be hsm hsync hbe
    rw [handleVisibility]
    simp only [if_false, Bool.false_eq_true]
    rw [sendCurrentState]
    simp only [hsm, hbe, hsync, if_pos rfl]
    simp

/-- Witness for `shared_host_hidden_broadcast`: two ports, the second hidden;
a slice broadcast reaches only port 1. -/
theorem shared_host_hidden_broadcast_witness :
    broadcastToAll
      [(1, ⟨0, false, none⟩), (2, ⟨0, true, some 0⟩)]
      (.orderbookUpdate
        { bids := [], asks := [], spread := 0, spreadPercent := 0, midpoint := 0,
          timestamp := 0, lastUpdateId := 0 } 0) =
      [(1, .orderbookUpdate
        { bids := [], asks := [], spread := 0, spreadPercent := 0, midpoint := 0,
          timestamp := 0, lastUpdateId := 0 } 0)] := by
  rw [(shared_host_hidden_broadcast
        [(1, ⟨0, false, none⟩), (2, ⟨0, true, some 0⟩)]
        { bids := [], asks := [], spread := 0, spreadPercent := 0, midpoint := 0,
          timestamp := 0, lastUpdateId := 0 } 0 _ rfl).1]
  rfl

/-! ### Binary protocol (src/lib/binary-protocol.ts)

The shared buffer is modelled as a map from byte offset to the slot written
there.  Every store of the protocol targets a fixed 4-byte-aligned
(`Int32`) or 8-byte-aligned (`Float64`) offset, and reads use the same
offsets, so a slot-per-offset model is faithful for every access pattern the
code performs. -/

/-- A value stored at some offset: a little-endian `Int32`, a little-endian
`Float64`, or nothing written yet. -/
inductive Slot where
  | i32 (v : ℤ)
  | f64 (v : ℚ)
  | undef
deriving DecidableEq, Repr

/-- The shared buffer contents. -/
abbrev SAB := ℕ → Slot

/-- The all-zero freshly allocated buffer (a new `SharedArrayBuffer` is
zero-filled; an unwritten slot reads as zero in either view). -/
def sabEmpty : SAB := fun _ => Slot.undef

/-- `view.setInt32(off, v, true)`. -/
def setI32 (b : SAB) (off : ℕ) (v : ℤ) : SAB :=
  fun x => if x = off then .i32 v else b x

/-- `view.setFloat64(off, v, true)`. -/
def setF64 (b : SAB) (off : ℕ) (v : ℚ) : SAB :=
  fun x => if x = off then .f64 v else b x

/-- `view.getInt32(off, true)`; an unwritten or differently-typed slot reads
as `0` (the model never relies on this except on the zero-filled buffer). -/
def getI32 (b : SAB) (off : ℕ) : ℤ :=
  match b off with
  | .i32 v => v
  | _ => 0

/-- `view.getFloat64(off, true)`. -/
def getF64 (b : SAB) (off : ℕ) : ℚ :=
  match b off with
  | .f64 v => v
  | _ => 0

/-- Layout constants of binary-protocol.ts. -/
def MAX_DEPTH : ℕ := 15

def VERSION_OFFSET : ℕ := 0
def BID_COUNT_OFFSET : ℕ := 4
def ASK_COUNT_OFFSET : ℕ := 8
def SPREAD_OFFSET : ℕ := 16
def SPREAD_PCT_OFFSET : ℕ := 24
def MIDPOINT_OFFSET : ℕ := 32
def TIMESTAMP_OFFSET : ℕ := 40
def LAST_UPDATE_ID_OFFSET : ℕ := 48
def HEADER_SIZE : ℕ := 56
def LEVEL_STRIDE : ℕ := 32
def BIDS_OFFSET : ℕ := HEADER_SIZE
def ASKS_OFFSET : ℕ := HEADER_SIZE + MAX_DEPTH * LEVEL_STRIDE

/-- The level-writing loop of `encodeOrderbookSlice`: four `Float64` stores
per level, advancing by `LEVEL_STRIDE`. -/
def writeLevels (b : SAB) (off : ℕ) : List PriceLevel → SAB
  | [] => b
  | l :: rest =>
      writeLevels
        (setF64 (setF64 (setF64 (setF64 b off l.price) (off + 8) l.size)
          (off + 16) l.cumulative) (off + 24) l.depthPercent)
        (off + LEVEL_STRIDE) rest

/-- The level-reading loop of `decodeOrderbookSlice` / `SABReader.decode`:
`count` levels of four `Float64` loads each. -/
def readLevels (b : SAB) (off : ℕ) : ℕ → List PriceLevel
  | 0 => []
  | n + 1 =>
      { price := getF64 b off, size := getF64 b (off + 8),
        cumulative := getF64 b (off + 16), depthPercent := getF64 b (off + 24) }
        :: readLevels b (off + LEVEL_STRIDE) n

/-- `encodeOrderbookSlice(slice, buffer)`: counts, header floats, bid levels,
ask levels, then the version increment (`Atomics.store(v, load(v) + 1)`). -/
def encodeOrderbookSlice (slice : OrderbookSlice) (b : SAB) : SAB :=
  let b := setI32 b BID_COUNT_OFFSET (slice.bids.length : ℤ)
  let b := setI32 b ASK_COUNT_OFFSET (slice.asks.length : ℤ)
  let b := setF64 b SPREAD_OFFSET slice.spread
  let b := setF64 b SPREAD_PCT_OFFSET slice.spreadPercent
  let b := setF64 b MIDPOINT_OFFSET slice.midpoint
  let b := setF64 b TIMESTAMP_OFFSET slice.timestamp
  let b := setF64 b LAST_UPDATE_ID_OFFSET slice.lastUpdateId
  let b := writeLevels b BIDS_OFFSET slice.bids
  let b := writeLevels b ASKS_OFFSET slice.asks
  setI32 b VERSION_OFFSET (getI32 b VERSION_OFFSET + 1)

/-- `decodeOrderbookSlice(buffer)`: reads back the raw counts (no clamping)
and that many levels from each table. -/
def decodeOrderbookSlice (b : SAB) : OrderbookSlice :=
  let bidCount := (getI32 b BID_COUNT_OFFSET).toNat
  let askCount := (getI32 b ASK_COUNT_OFFSET).toNat
  { bids := readLevels b BIDS_OFFSET bidCount
    asks := readLevels b ASKS_OFFSET askCount
    spread := getF64 b SPREAD_OFFSET
    spreadPercent := getF64 b SPREAD_PCT_OFFSET
    midpoint := getF64 b MIDPOINT_OFFSET
    timestamp := getF64 b TIMESTAMP_OFFSET
    lastUpdateId := getF64 b LAST_UPDATE_ID_OFFSET }

/-- `SABReader.decode()`: identical loads, but both counts are clamped with
`Math.min(count, MAX_DEPTH)` before the level loops. -/
def sabReaderDecode (b : SAB) : OrderbookSlice :=
  let bidCount := (min (getI32 b BID_COUNT_OFFSET) (MAX_DEPTH : ℤ)).toNat
  let askCount := (min (getI32 b ASK_COUNT_OFFSET) (MAX_DEPTH : ℤ)).toNat
  { bids := readLevels b BIDS_OFFSET bidCount
    asks := readLevels b ASKS_OFFSET askCount
    spread := getF64 b SPREAD_OFFSET
    spreadPercent := getF64 b SPREAD_PCT_OFFSET
    midpoint := getF64 b MIDPOINT_OFFSET
    timestamp := getF64 b TIMESTAMP_OFFSET
    lastUpdateId := getF64 b LAST_UPDATE_ID_OFFSET }

/-- `readVersion(buffer)`. -/
def readVersion (b : SAB) : ℤ := getI32 b VERSION_OFFSET

/-! #### Buffer lemmas -/

theorem setF64_self (b : SAB) (off : ℕ) (v : ℚ) : setF64 b off v off = .f64 v := by
  simp [setF64]

theorem setF64_other (b : SAB) (off x : ℕ) (v : ℚ) (h : x ≠ off) :
    setF64 b off v x = b x := by
  simp [setF64, h]

theorem setI32_other (b : SAB) (off x : ℕ) (v : ℤ) (h : x ≠ off) :
    setI32 b off v x = b x := by
  simp [setI32, h]

/-- The level-writing loop touches no offset below its start. -/
theorem writeLevels_lower (ls : List PriceLevel) (b : SAB) (off x : ℕ) (h : x < off) :
    writeLevels b off ls x = b x := by
  induction ls generalizing b off with
  | nil => rfl
  | cons l rest ih =>
      rw [writeLevels]
      rw [ih _ _ (by simp only [LEVEL_STRIDE]; omega)]
      rw [setF64_other _ _ _ _ (by omega)]
      rw [setF64_other _ _ _ _ (by omega)]
      rw [setF64_other _ _ _ _ (by omega)]
      rw [setF64_other _ _ _ _ (by omega)]

/-- The level-writing loop touches no offset at or beyond its end. -/
theorem writeLevels_upper (ls : List PriceLevel) (b : SAB) (off x : ℕ)
    (h : off + LEVEL_STRIDE * ls.length ≤ x) :
    writeLevels b off ls x = b x := by
  induction ls generalizing b off with
  | nil => rfl
  | cons l rest ih =>
      rw [List.length_cons] at h
      simp only [LEVEL_STRIDE] at h
      rw [writeLevels]
      rw [ih _ _ (by simp only [LEVEL_STRIDE]; omega)]
      rw [setF64_other _ _ _ _ (by omega)]
      rw [setF64_other _ _ _ _ (by omega)]
      rw [setF64_other _ _ _ _ (by omega)]
      rw [setF64_other _ _ _ _ (by omega)]

/-- The level-reading loop depends only on the slots of its own region:
reading `n` levels from `off` touches exactly `[off, off + 32*n)`. -/
theorem readLevels_congr (n : ℕ) (b1 b2 : SAB) (off : ℕ)
    (h : ∀ x, off ≤ x → x < off + LEVEL_STRIDE * n → b1 x = b2 x) :
    readLevels b1 off n = readLevels b2 off n := by
  induction n generalizing off with
  | zero => rfl
  | succ n ih =>
      simp only [LEVEL_STRIDE] at h
      rw [readLevels, readLevels]
      have hread : ∀ y, off ≤ y → y < off + 32 → getF64 b1 y = getF64 b2 y := by
        intro y hy1 hy2
        rw [getF64, getF64, h y hy1 (by omega)]
      congr 1
      · rw [PriceLevel.mk.injEq]
        refine ⟨?_, ?_, ?_, ?_⟩ <;>
          exact hread _ (by omega) (by omega)
      · refine ih (off + LEVEL_STRIDE) (fun x hx1 hx2 => ?_)
        simp only [LEVEL_STRIDE] at hx1 hx2
        exact h x (by omega) (by omega)

/-- Round trip of the level loops: writing a list of levels and reading back
its length worth of levels from the same base recovers the list. -/
theorem readLevels_writeLevels (ls : List PriceLevel) (b : SAB) (off : ℕ) :
    readLevels (writeLevels b off ls) off ls.length = ls := by
  induction ls generalizing b off with
  | nil => rfl
  | cons l rest ih =>
      rw [List.length_cons, writeLevels, readLevels]
      congr 1
      · have hlow : ∀ x, x < off + LEVEL_STRIDE →
            writeLevels
              (setF64 (setF64 (setF64 (setF64 b off l.price) (off + 8) l.size)
                (off + 16) l.cumulative) (off + 24) l.depthPercent)
              (off + LEVEL_STRIDE) rest x =
            (setF64 (setF64 (setF64 (setF64 b off l.price) (off + 8) l.size)
              (off + 16) l.cumulative) (off + 24) l.depthPercent) x :=
          fun x hx => writeLevels_lower rest _ _ _ hx
        have hstride : LEVEL_STRIDE = 32 := rfl
        rw [PriceLevel.mk.injEq]
        refine ⟨?_, ?_, ?_, ?_⟩
        · rw [getF64, hlow off (by omega)]
          rw [setF64_other _ _ _ _ (by omega), setF64_other _ _ _ _ (by omega),
            setF64_other _ _ _ _ (by omega), setF64_self]
        · rw [getF64, hlow (off + 8) (by omega)]
          rw [setF64_other _ _ _ _ (by omega), setF64_other _ _ _ _ (by omega),
            setF64_self]
        · rw [getF64, hlow (off + 16) (by omega)]
          rw [setF64_other _ _ _ _ (by omega), setF64_self]
        · rw [getF64, hlow (off + 24) (by omega)]
          rw [setF64_self]
      · exact ih _ _

theorem readLevels_length (b : SAB) (off n : ℕ) : (readLevels b off n).length = n := by
  induction n generalizing off with
  | zero => rfl
  | succ n ih => rw [readLevels, List.length_cons, ih]

theorem getI32_setI32_self (b : SAB) (off : ℕ) (v : ℤ) :
    getI32 (setI32 b off v) off = v := by
  simp [getI32, setI32]

theorem getI32_setI32_other (b : SAB) (off x : ℕ) (v : ℤ) (h : x ≠ off) :
    getI32 (setI32 b off v) x = getI32 b x := by
  rw [getI32, setI32_other _ _ _ _ h, getI32]

theorem getI32_setF64_other (b : SAB) (off x : ℕ) (v : ℚ) (h : x ≠ off) :
    getI32 (setF64 b off v) x = getI32 b x := by
  rw [getI32, setF64_other _ _ _ _ h, getI32]

theorem getF64_setF64_self (b : SAB) (off : ℕ) (v : ℚ) :
    getF64 (setF64 b off v) off = v := by
  simp [getF64, setF64]

theorem getF64_setF64_other (b : SAB) (off x : ℕ) (v : ℚ) (h : x ≠ off) :
    getF64 (setF64 b off v) x = getF64 b x := by
  rw [getF64, setF64_other _ _ _ _ h, getF64]

theorem getF64_setI32_other (b : SAB) (off x : ℕ) (v : ℤ) (h : x ≠ off) :
    getF64 (setI32 b off v) x = getF64 b x := by
  rw [getF64, setI32_other _ _ _ _ h, getF64]

/-- The buffer produced by the header writes of `encodeOrderbookSlice`
(counts and five scalar floats), before the level loops and version bump. -/
def headerBuf (slice : OrderbookSlice) (b : SAB) : SAB :=
  setF64 (setF64 (setF64 (setF64 (setF64
    (setI32 (setI32 b BID_COUNT_OFFSET (slice.bids.length : ℤ))
      ASK_COUNT_OFFSET (slice.asks.length : ℤ))
    SPREAD_OFFSET slice.spread) SPREAD_PCT_OFFSET slice.spreadPercent)
    MIDPOINT_OFFSET slice.midpoint) TIMESTAMP_OFFSET slice.timestamp)
    LAST_UPDATE_ID_OFFSET slice.lastUpdateId

theorem encodeOrderbookSlice_eq (slice : OrderbookSlice) (b : SAB) :
    encodeOrderbookSlice slice b =
      (fun w2 => setI32 w2 VERSION_OFFSET (getI32 w2 VERSION_OFFSET + 1))
        (writeLevels (writeLevels (headerBuf slice b) BIDS_OFFSET slice.bids)
          ASKS_OFFSET slice.asks) := rfl

/-- C4: encoding a slice with at most 15 levels per side into any buffer and
decoding it back returns the slice unchanged — every scalar field and every
`(price, size, cumulative, depthPercent)` tuple of every level, with the
original bid and ask counts. -/
theorem encode_decode_roundtrip (slice : OrderbookSlice) (b : SAB)
    (hb : slice.bids.length ≤ MAX_DEPTH) (ha : slice.asks.length ≤ MAX_DEPTH) :
    decodeOrderbookSlice (encodeOrderbookSlice slice b) = slice := by
  simp only [MAX_DEPTH] at hb ha
  rw [encodeOrderbookSlice_eq]
  set hdr : SAB := headerBuf slice b with hhdr
  set w1 : SAB := writeLevels hdr BIDS_OFFSET slice.bids with hw1
  set w2 : SAB := writeLevels w1 ASKS_OFFSET slice.asks with hw2
  set enc : SAB := setI32 w2 VERSION_OFFSET (getI32 w2 VERSION_OFFSET + 1) with henc
  have hstride : LEVEL_STRIDE = 32 := rfl
  have hbo : BIDS_OFFSET = 56 := rfl
  have hao : ASKS_OFFSET = 536 := rfl
  -- the version store only touches offset 0
  have hver : ∀ x : ℕ, x ≠ 0 → enc x = w2 x := by
    intro x hx
    rw [henc]
    exact setI32_other _ _ _ _ (by simpa [VERSION_OFFSET] using hx)
  -- header slots (offsets 1..55) survive both level loops and the version store
  have hhdrslot : ∀ x : ℕ, 0 < x → x < 56 → enc x = hdr x := by
    intro x hx0 hx
    rw [hver x (by omega), hw2, writeLevels_lower _ _ _ _ (by omega),
      hw1, writeLevels_lower _ _ _ _ (by omega)]
  have hc4 : BID_COUNT_OFFSET = 4 := rfl
  have hc8 : ASK_COUNT_OFFSET = 8 := rfl
  have hc16 : SPREAD_OFFSET = 16 := rfl
  have hc24 : SPREAD_PCT_OFFSET = 24 := rfl
  have hc32 : MIDPOINT_OFFSET = 32 := rfl
  have hc40 : TIMESTAMP_OFFSET = 40 := rfl
  have hc48 : LAST_UPDATE_ID_OFFSET = 48 := rfl
  -- counts read back
  have hbidcount : getI32 enc BID_COUNT_OFFSET = (slice.bids.length : ℤ) := by
    rw [hc4, getI32, hhdrslot 4 (by omega) (by omega), hhdr, headerBuf]
    rw [setF64_other _ _ _ _ (by decide), setF64_other _ _ _ _ (by decide),
      setF64_other _ _ _ _ (by decide), setF64_other _ _ _ _ (by decide),
      setF64_other _ _ _ _ (by decide), setI32_other _ _ _ _ (by decide)]
    rw [setI32]
    simp [BID_COUNT_OFFSET]
  have haskcount : getI32 enc ASK_COUNT_OFFSET = (slice.asks.length : ℤ) := by
    rw [hc8, getI32, hhdrslot 8 (by omega) (by omega), hhdr, headerBuf]
    rw [setF64_other _ _ _ _ (by decide), setF64_other _ _ _ _ (by decide),
      setF64_other _ _ _ _ (by decide), setF64_other _ _ _ _ (by decide),
      setF64_other _ _ _ _ (by decide)]
    rw [setI32]
    simp [ASK_COUNT_OFFSET]
  -- scalar floats read back
  have hspread : getF64 enc SPREAD_OFFSET = slice.spread := by
    rw [hc16, getF64, hhdrslot 16 (by omega) (by omega), hhdr, headerBuf]
    rw [setF64_other _ _ _ _ (by decide), setF64_other _ _ _ _ (by decide),
      setF64_other _ _ _ _ (by decide), setF64_other _ _ _ _ (by decide)]
    rw [setF64]
    simp [SPREAD_OFFSET]
  have hspreadPct : getF64 enc SPREAD_PCT_OFFSET = slice.spreadPercent := by
    rw [hc24, getF64, hhdrslot 24 (by omega) (by omega), hhdr, headerBuf]
    rw [setF64_other _ _ _ _ (by decide), setF64_other _ _ _ _ (by decide),
      setF64_other _ _ _ _ (by decide)]
    rw [setF64]
    simp [SPREAD_PCT_OFFSET]
  have hmid : getF64 enc MIDPOINT_OFFSET = slice.midpoint := by
    rw [hc32, getF64, hhdrslot 32 (by omega) (by omega), hhdr, headerBuf]
    rw [setF64_other _ _ _ _ (by decide), setF64_other _ _ _ _ (by decide)]
    rw [setF64]
    simp [MIDPOINT_OFFSET]
  have hts : getF64 enc TIMESTAMP_OFFSET = slice.timestamp := by
    rw [hc40, getF64, hhdrslot 40 (by omega) (by omega), hhdr, headerBuf]
    rw [setF64_other _ _ _ _ (by decide)]
    rw [setF64]
    simp [TIMESTAMP_OFFSET]
  have hlid : getF64 enc LAST_UPDATE_ID_OFFSET = slice.lastUpdateId := by
    rw [hc48, getF64, hhdrslot 48 (by omega) (by omega), hhdr, headerBuf]
    rw [setF64]
    simp [LAST_UPDATE_ID_OFFSET]
  -- level tables read back
  have hbids : readLevels enc BIDS_OFFSET slice.bids.length = slice.bids := by
    have hcongr : readLevels enc BIDS_OFFSET slice.bids.length =
        readLevels w1 BIDS_OFFSET slice.bids.length := by
      refine readLevels_congr _ _ _ _ (fun x hx1 hx2 => ?_)
      rw [hbo] at hx1
      rw [hbo, hstride] at hx2
      rw [hver x (by omega), hw2, writeLevels_lower _ _ _ _ (by rw [hao]; omega)]
    rw [hcongr, hw1, readLevels_writeLevels]
  have hasks : readLevels enc ASKS_OFFSET slice.asks.length = slice.asks := by
    have hcongr : readLevels enc ASKS_OFFSET slice.asks.length =
        readLevels w2 ASKS_OFFSET slice.asks.length := by
      refine readLevels_congr _ _ _ _ (fun x hx1 hx2 => ?_)
      rw [hao] at hx1
      exact hver x (by omega)
    rw [hcongr, hw2, readLevels_writeLevels]
  rw [decodeOrderbookSlice]
  rw [hbidcount, haskcount, Int.toNat_natCast, Int.toNat_natCast,
    hbids, hasks, hspread, hspreadPct, hmid, hts, hlid]

/-- Witness for `encode_decode_roundtrip`: one bid, one ask, integer-valued
fields, written into the fresh buffer. -/
theorem encode_decode_roundtrip_witness :
    decodeOrderbookSlice
      (encodeOrderbookSlice
        { bids := [⟨97500, 2, 2, 100⟩], asks := [⟨97501, 1, 1, 50⟩],
          spread := 1, spreadPercent := 0, midpoint := 97500, timestamp := 1700000000000,
          lastUpdateId := 1027024 } sabEmpty) =
      { bids := [⟨97500, 2, 2, 100⟩], asks := [⟨97501, 1, 1, 50⟩],
        spread := 1, spreadPercent := 0, midpoint := 97500, timestamp := 1700000000000,
        lastUpdateId := 1027024 } :=
  encode_decode_roundtrip
    { bids := [⟨97500, 2, 2, 100⟩], asks := [⟨97501, 1, 1, 50⟩],
      spread := 1, spreadPercent := 0, midpoint := 97500, timestamp := 1700000000000,
      lastUpdateId := 1027024 } sabEmpty (by decide) (by decide)

/-- A buffer whose stored `bid_count` is 16 (> MAX_DEPTH), as could be seen
after memory corruption or a racing writer. -/
def corruptCountBuf : SAB := setI32 sabEmpty BID_COUNT_OFFSET 16

/-- C6 counterexample: `decodeOrderbookSlice` performs no clamping — with a
stored `bid_count` of 16 it returns 16 bid levels (more than the 15-entry
table holds), so the claim is false for this reader; its 16th level is read
from offset 536, the start of the ask table. -/
theorem decodeOrderbookSlice_no_clamp :
    (decodeOrderbookSlice corruptCountBuf).bids.length = 16
    ∧ ¬ (decodeOrderbookSlice corruptCountBuf).bids.length ≤ 15
    ∧ BIDS_OFFSET + 15 * LEVEL_STRIDE = ASKS_OFFSET := by
  refine ⟨?_, ?_, rfl⟩
  · rw [decodeOrderbookSlice]
    rw [readLevels_length]
    rfl
  · rw [decodeOrderbookSlice]
    rw [readLevels_length]
    decide

/-- C6 (amended): only the pooled `SABReader.decode` clamps.  For every
buffer contents it returns at most 15 bid and 15 ask levels, and its result
depends only on the header slots and the two 15-entry level tables — it
never reads level data outside them.  (`decodeOrderbookSlice` returns
exactly the stored count of levels, see `decodeOrderbookSlice_no_clamp`.) -/
theorem sabReader_decode_clamps (b : SAB) :
    (sabReaderDecode b).bids.length ≤ 15
    ∧ (sabReaderDecode b).asks.length ≤ 15
    ∧ (∀ b2 : SAB,
        (∀ x, x < HEADER_SIZE → b2 x = b x) →
        (∀ x, BIDS_OFFSET ≤ x → x < BIDS_OFFSET + MAX_DEPTH * LEVEL_STRIDE → b2 x = b x) →
        (∀ x, ASKS_OFFSET ≤ x → x < ASKS_OFFSET + MAX_DEPTH * LEVEL_STRIDE → b2 x = b x) →
        sabReaderDecode b2 = sabReaderDecode b) := by
  have hlen : ∀ c : ℤ, (min c (MAX_DEPTH : ℤ)).toNat ≤ 15 := by
    intro c
    have h1 : min c (MAX_DEPTH : ℤ) ≤ (15 : ℤ) := min_le_right c 15
    omega
  refine ⟨?_, ?_, ?_⟩
  · rw [sabReaderDecode, readLevels_length]
    exact hlen _
  · rw [sabReaderDecode, readLevels_length]
    exact hlen _
  · intro b2 hhdr hbids hasks
    have hdr : ∀ x, x < 56 → b2 x = b x := by
      intro x hx
      exact hhdr x (by simpa [HEADER_SIZE] using hx)
    have hgetI : ∀ x, x < 56 → getI32 b2 x = getI32 b x := by
      intro x hx
      rw [getI32, hdr x hx, getI32]
    have hgetF : ∀ x, x < 56 → getF64 b2 x = getF64 b x := by
      intro x hx
      rw [getF64, hdr x hx, getF64]
    rw [sabReaderDecode, sabReaderDecode]
    rw [hgetI BID_COUNT_OFFSET (by decide), hgetI ASK_COUNT_OFFSET (by decide),
      hgetF SPREAD_OFFSET (by decide), hgetF SPREAD_PCT_OFFSET (by decide),
      hgetF MIDPOINT_OFFSET (by decide), hgetF TIMESTAMP_OFFSET (by decide),
      hgetF LAST_UPDATE_ID_OFFSET (by decide)]
    have hbidlv :
        readLevels b2 BIDS_OFFSET (min (getI32 b BID_COUNT_OFFSET) (MAX_DEPTH : ℤ)).toNat =
        readLevels b BIDS_OFFSET (min (getI32 b BID_COUNT_OFFSET) (MAX_DEPTH : ℤ)).toNat := by
      refine readLevels_congr _ _ _ _ (fun x hx1 hx2 => ?_)
      refine hbids x hx1 ?_
      have hc := hlen (getI32 b BID_COUNT_OFFSET)
      have hs : (LEVEL_STRIDE : ℕ) = 32 := rfl
      have hm : (MAX_DEPTH : ℕ) = 15 := rfl
      rw [hs] at hx2
      rw [hm, hs]
      omega
    have hasklv :
        readLevels b2 ASKS_OFFSET (min (getI32 b ASK_COUNT_OFFSET) (MAX_DEPTH : ℤ)).toNat =
        readLevels b ASKS_OFFSET (min (getI32 b ASK_COUNT_OFFSET) (MAX_DEPTH : ℤ)).toNat := by
      refine readLevels_congr _ _ _ _ (fun x hx1 hx2 => ?_)
      refine hasks x hx1 ?_
      have hc := hlen (getI32 b ASK_COUNT_OFFSET)
      have hs : (LEVEL_STRIDE : ℕ) = 32 := rfl
      have hm : (MAX_DEPTH : ℕ) = 15 := rfl
      rw [hs] at hx2
      rw [hm, hs]
      omega
    rw [hbidlv, hasklv]

/-! ### Slice ordering invariants (claim C5) -/

/-- The keys of a book side are pairwise distinct (JS `Map` invariant). -/
def keysNodup (m : BookSide) : Prop := (m.map Prod.fst).Nodup

/-- Every stored size is positive (snapshots insert only `qty > 0`; deltas of
a conforming feed delete at `0` and upsert positive quantities). -/
def sizesPos (m : BookSide) : Prop := ∀ e ∈ m, 0 < e.2

theorem calcCumAux_price_map (c : ℚ) (l : List (ℚ × ℚ)) :
    (calcCumAux c l).map (·.price) = l.map Prod.fst := by
  induction l generalizing c with
  | nil => rfl
  | cons e rest ih =>
      rcases e with ⟨p, s⟩
      rw [calcCumAux, List.map_cons, List.map_cons, ih]

theorem applyDepthPercent_price_map (m : ℚ) (ls : List PriceLevel) :
    (applyDepthPercent m ls).map (·.price) = ls.map (·.price) := by
  rw [applyDepthPercent, List.map_map]
  congr 1

theorem applyDepthPercent_cum_map (m : ℚ) (ls : List PriceLevel) :
    (applyDepthPercent m ls).map (·.cumulative) = ls.map (·.cumulative) := by
  rw [applyDepthPercent, List.map_map]
  congr 1

theorem calcCumAux_cum_gt (c : ℚ) (l : List (ℚ × ℚ)) (hpos : ∀ e ∈ l, 0 < e.2) :
    ∀ x ∈ calcCumAux c l, c < x.cumulative := by
  induction l generalizing c with
  | nil => intro x hx; cases hx
  | cons e rest ih =>
      rcases e with ⟨p, s⟩
      intro x hx
      rw [calcCumAux, List.mem_cons] at hx
      have hs : 0 < s := hpos (p, s) (List.mem_cons_self _ _)
      rcases hx with hx | hx
      · rw [hx]
        show c < c + s
        linarith
      · have := ih (c + s) (fun e he => hpos e (List.mem_cons_of_mem _ he)) x hx
        linarith

theorem calcCumAux_cum_pairwise (c : ℚ) (l : List (ℚ × ℚ)) (hpos : ∀ e ∈ l, 0 < e.2) :
    (calcCumAux c l).Pairwise (fun a b => a.cumulative < b.cumulative) := by
  induction l generalizing c with
  | nil => exact List.Pairwise.nil
  | cons e rest ih =>
      rcases e with ⟨p, s⟩
      rw [calcCumAux]
      refine List.Pairwise.cons ?_ (ih (c + s) (fun e he => hpos e (List.mem_cons_of_mem _ he)))
      intro x hx
      exact calcCumAux_cum_gt (c + s) rest (fun e he => hpos e (List.mem_cons_of_mem _ he)) x hx

/-- Strict ordering of one sorted, key-distinct, positive-size side after the
cumulative and depth-percent passes: prices strictly ordered by `r`,
cumulatives strictly increasing. -/
theorem side_levels_strict (r : ℚ × ℚ → ℚ × ℚ → Prop) [DecidableRel r]
    [IsTotal (ℚ × ℚ) r] [IsTrans (ℚ × ℚ) r]
    (m : BookSide) (depth : ℕ) (hnd : keysNodup m) (hpos : sizesPos m)
    (final : List PriceLevel) (maxC : ℚ)
    (hfinal : final = (if 0 < maxC
        then applyDepthPercent maxC (calculateCumulative ((List.insertionSort r m).take depth))
        else calculateCumulative ((List.insertionSort r m).take depth)))
    (strictr : ℚ → ℚ → Prop)
    (hstrict : ∀ a b : ℚ × ℚ, r a b → a.1 ≠ b.1 → strictr a.1 b.1) :
    final.Pairwise (fun a b => strictr a.price b.price)
    ∧ final.Pairwise (fun a b => a.cumulative < b.cumulative) := by
  set t : BookSide := (List.insertionSort r m).take depth with ht
  have hsorted : t.Pairwise r :=
    List.Pairwise.sublist (List.take_sublist _ _) (List.sorted_insertionSort r m)
  have hperm : List.Perm (List.insertionSort r m) m := List.perm_insertionSort r m
  have hnodup_sort : ((List.insertionSort r m).map Prod.fst).Nodup :=
    ((hperm.map Prod.fst).nodup_iff).mpr hnd
  have hnodup_t : (t.map Prod.fst).Nodup := by
    rw [ht, List.map_take]
    exact List.Nodup.sublist (List.take_sublist _ _) hnodup_sort
  have hne : t.Pairwise (fun a b => a.1 ≠ b.1) := List.pairwise_map.mp hnodup_t
  have hstrict_t : t.Pairwise (fun a b => strictr a.1 b.1) :=
    (hsorted.and hne).imp (fun h => hstrict _ _ h.1 h.2)
  have hpos_t : ∀ e ∈ t, 0 < e.2 := by
    intro e he
    have hmem : e ∈ List.insertionSort r m := (List.take_sublist _ _).subset he
    exact hpos e (hperm.mem_iff.mp hmem)
  -- transport along the price and cumulative projections
  have hprice_map : final.map (·.price) = t.map Prod.fst := by
    rw [hfinal]
    split_ifs
    · rw [applyDepthPercent_price_map, calculateCumulative, calcCumAux_price_map]
    · rw [calculateCumulative, calcCumAux_price_map]
  have hcum_map : final.map (·.cumulative) =
      (calculateCumulative t).map (·.cumulative) := by
    rw [hfinal]
    split_ifs
    · rw [applyDepthPercent_cum_map]
    · rfl
  constructor
  · have h1 : (final.map (·.price)).Pairwise strictr := by
      rw [hprice_map]
      exact List.pairwise_map.mpr hstrict_t
    exact List.pairwise_map.mp h1
  · have h2 : ((calculateCumulative t).map (·.cumulative)).Pairwise (· < ·) :=
      List.pairwise_map.mpr (calcCumAux_cum_pairwise 0 t hpos_t)
    have h3 : (final.map (·.cumulative)).Pairwise (· < ·) := by
      rw [hcum_map]
      exact h2
    exact List.pairwise_map.mp h3

/-- C5: for every slice emitted from a book side with pairwise-distinct keys
and positive sizes, bid levels are strictly descending in price with strictly
increasing cumulative, and ask levels strictly ascending in price with
strictly increasing cumulative. -/
theorem slice_sorted_strict (st : BEState) (now : ℚ)
    (hbnd : keysNodup st.bids) (hbp : sizesPos st.bids)
    (hand : keysNodup st.asks) (hap : sizesPos st.asks) :
    ((getSlice st now).bids.Pairwise (fun a b => b.price < a.price)
      ∧ (getSlice st now).bids.Pairwise (fun a b => a.cumulative < b.cumulative))
    ∧ ((getSlice st now).asks.Pairwise (fun a b => a.price < b.price)
      ∧ (getSlice st now).asks.Pairwise (fun a b => a.cumulative < b.cumulative)) := by
  have hbids := side_levels_strict bidOrd st.bids st.depth hbnd hbp
    (getSlice st now).bids
    (max (lastCumulative (calculateCumulative ((List.insertionSort bidOrd st.bids).take st.depth)))
         (lastCumulative (calculateCumulative ((List.insertionSort askOrd st.asks).take st.depth))))
    rfl (fun a b => b < a)
    (fun a b hr hne => lt_of_le_of_ne hr (fun h => hne h.symm))
  have hasks := side_levels_strict askOrd st.asks st.depth hand hap
    (getSlice st now).asks
    (max (lastCumulative (calculateCumulative ((List.insertionSort bidOrd st.bids).take st.depth)))
         (lastCumulative (calculateCumulative ((List.insertionSort askOrd st.asks).take st.depth))))
    rfl (fun a b => a < b)
    (fun a b hr hne => lt_of_le_of_ne hr hne)
  exact ⟨hbids, hasks⟩

/-- Witness for `slice_sorted_strict`: a four-level book with distinct prices
and positive sizes. -/
theorem slice_sorted_strict_witness :
    ((getSlice ⟨[(100, 1), (99, 2)], [(101, 1), (102, 3)], 7, 15⟩ 0).bids.Pairwise
        (fun a b => b.price < a.price)
      ∧ (getSlice ⟨[(100, 1), (99, 2)], [(101, 1), (102, 3)], 7, 15⟩ 0).bids.Pairwise
        (fun a b => a.cumulative < b.cumulative))
    ∧ ((getSlice ⟨[(100, 1), (99, 2)], [(101, 1), (102, 3)], 7, 15⟩ 0).asks.Pairwise
        (fun a b => a.price < b.price)
      ∧ (getSlice ⟨[(100, 1), (99, 2)], [(101, 1), (102, 3)], 7, 15⟩ 0).asks.Pairwise
        (fun a b => a.cumulative < b.cumulative)) :=
  slice_sorted_strict ⟨[(100, 1), (99, 2)], [(101, 1), (102, 3)], 7, 15⟩ 0
    (by unfold keysNodup; decide) (by unfold sizesPos; decide)
    (by unfold keysNodup; decide) (by unfold sizesPos; decide)

/-! ### One-sided books (claim C3) -/

/-- C3 counterexample: on a book with one bid at 100 (size 1) and no asks,
`getSlice` emits the populated side only, but `spread = 0 - 100 = -100` and
`midpoint = (100 + 0) / 2 = 50` — neither is 0, because the missing side's
best price falls back to `?? 0` and the formulas run unconditionally. -/
theorem one_sided_slice_nonzero_cex :
    (getSlice ⟨[(100, 1)], [], 5, 15⟩ 0).asks = []
    ∧ (getSlice ⟨[(100, 1)], [], 5, 15⟩ 0).bids ≠ []
    ∧ (getSlice ⟨[(100, 1)], [], 5, 15⟩ 0).spread = -100
    ∧ (getSlice ⟨[(100, 1)], [], 5, 15⟩ 0).midpoint = 50
    ∧ ¬ ((getSlice ⟨[(100, 1)], [], 5, 15⟩ 0).spread = 0
          ∧ (getSlice ⟨[(100, 1)], [], 5, 15⟩ 0).midpoint = 0) := by
  have h : getSlice ⟨[(100, 1)], [], 5, 15⟩ 0 =
      { bids := [⟨100, 1, 1, 100⟩], asks := [], spread := -100, spreadPercent := -2,
        midpoint := 50, timestamp := 0, lastUpdateId := 5 } := by
    norm_num [getSlice, List.insertionSort, List.orderedInsert, calculateCumulative,
      calcCumAux, lastCumulative, applyDepthPercent, jsRound]
  rw [h]
  norm_num

/-- C3 (amended): with exactly one populated side, the slice contains levels
for that side only, but spread and midpoint are computed with the missing
side's best price as 0: empty asks give `spread = -best_bid` and
`midpoint = best_bid / 2`; empty bids give `spread = best_ask` and
`midpoint = best_ask / 2` (0 only when the populated side is empty too). -/
theorem one_sided_slice (st : BEState) (now : ℚ) :
    (st.asks = [] →
      (getSlice st now).asks = []
      ∧ (getSlice st now).spread = -(((getSlice st now).bids.head?).elim 0 (·.price))
      ∧ (getSlice st now).midpoint = (((getSlice st now).bids.head?).elim 0 (·.price)) / 2)
    ∧ (st.bids = [] →
      (getSlice st now).bids = []
      ∧ (getSlice st now).spread = ((getSlice st now).asks.head?).elim 0 (·.price)
      ∧ (getSlice st now).midpoint = (((getSlice st now).asks.head?).elim 0 (·.price)) / 2) := by
  constructor
  · intro ha
    have hempty : (getSlice st now).asks = [] := by
      rw [getSlice]
      simp [ha, calculateCumulative, calcCumAux, applyDepthPercent]
    refine ⟨hempty, ?_, ?_⟩
    · rw [getSlice] at hempty ⊢
      simp only [ha] at hempty ⊢
      simp only [List.insertionSort, List.take_nil, calculateCumulative, calcCumAux] at hempty ⊢
      simp [applyDepthPercent, lastCumulative]
    · rw [getSlice] at hempty ⊢
      simp only [ha] at hempty ⊢
      simp only [List.insertionSort, List.take_nil, calculateCumulative, calcCumAux] at hempty ⊢
      simp [applyDepthPercent, lastCumulative]
  · intro hb
    have hempty : (getSlice st now).bids = [] := by
      rw [getSlice]
      simp [hb, calculateCumulative, calcCumAux, applyDepthPercent]
    refine ⟨hempty, ?_, ?_⟩
    · rw [getSlice] at hempty ⊢
      simp only [hb] at hempty ⊢
      simp only [List.insertionSort, List.take_nil, calculateCumulative, calcCumAux] at hempty ⊢
      simp [applyDepthPercent, lastCumulative]
    · rw [getSlice] at hempty ⊢
      simp only [hb] at hempty ⊢
      simp only [List.insertionSort, List.take_nil, calculateCumulative, calcCumAux] at hempty ⊢
      simp [applyDepthPercent, lastCumulative]

/-- Witness for `one_sided_slice` at the one-bid book of the counterexample. -/
theorem one_sided_slice_witness :
    (getSlice ⟨[(100, 1)], [], 5, 15⟩ 0).asks = []
    ∧ (getSlice ⟨[(100, 1)], [], 5, 15⟩ 0).spread =
        -(((getSlice ⟨[(100, 1)], [], 5, 15⟩ 0).bids.head?).elim 0 (·.price))
    ∧ (getSlice ⟨[(100, 1)], [], 5, 15⟩ 0).midpoint =
        (((getSlice ⟨[(100, 1)], [], 5, 15⟩ 0).bids.head?).elim 0 (·.price)) / 2 :=
  (one_sided_slice ⟨[(100, 1)], [], 5, 15⟩ 0).1 rfl

end Humidifi
